import Mathlib

/-!
Verification development for the mcpo-docker gateway (Python sources:
config_handler.py, mcp_proxy.py, process_monitor.py, health_check.py).

The Python code is shallowly embedded: every definition below mirrors a
specific function of the source, with the file and line range recorded in
its doc comment.  Machine integers are Nat/Int, Python dicts are
association lists in insertion order, Python exceptions are Except values.
-/

namespace Mcpo

/-! ## Environments (os.environ and config environments) as association lists -/

/-- A Python dict with string keys, in insertion order. -/
abbrev Dict (α : Type) := List (String × α)

/-- Dictionary lookup, `d.get(k)` / `d[k]`: first binding wins (keys are
unique in a real Python dict, so this is exact). -/
def dictGet {α : Type} (d : Dict α) (k : String) : Option α :=
  (d.find? (fun p => p.1 == k)).map (fun p => p.2)

/-- Dictionary update `d[k] = v`: replace the binding in place if the key is
present, append otherwise (Python dicts keep insertion order). -/
def dictSet {α : Type} (d : Dict α) (k : String) (v : α) : Dict α :=
  if d.any (fun p => p.1 == k) then
    d.map (fun p => if p.1 == k then (k, v) else p)
  else
    d ++ [(k, v)]

/-- The process environment, `os.environ`, as a finite string map. -/
abbrev EnvMap := Dict String

/-- Membership/lookup in `os.environ`: `os.environ.get(name)`. -/
def envGet (env : EnvMap) (n : String) : Option String := dictGet env n

/-! ## The `${NAME}` token scanner

`config_handler.py:222` compiles the pattern `\$\x7b([A-Za-z0-9_]+)\x7d`
and `substitute_env_vars` runs `findall` over every string value.  The
scanner below reproduces `re.findall` for that pattern exactly: scan left
to right; at a `$` followed by `\x7b`, a maximal nonempty run of
`[A-Za-z0-9_]` characters closed by `\x7d` is a match and scanning resumes
after it; otherwise scanning advances one character. -/

/-- Character class `[A-Za-z0-9_]` of the pattern at config_handler.py:222. -/
def isVarCharPy (c : Char) : Bool := c.isAlpha || c.isDigit || c == '_'

/-- Fuel-indexed scanner (structural recursion on the fuel so that concrete
runs reduce inside the kernel).  Every step consumes one unit of fuel and at
least one character, so fuel equal to the string length is always enough;
the fuel-exhausted branch is unreachable from the wrapper below. -/
def scanTokensF : Nat → List Char → List (List Char)
  | _, [] => []
  | 0, _ => []
  | fuel + 1, '$' :: '{' :: rest =>
    match rest.dropWhile isVarCharPy with
    | '}' :: rest2 =>
      if rest.takeWhile isVarCharPy ≠ [] then
        rest.takeWhile isVarCharPy :: scanTokensF fuel rest2
      else
        scanTokensF fuel ('{' :: rest)
    | _ => scanTokensF fuel ('{' :: rest)
  | fuel + 1, _ :: cs2 => scanTokensF fuel cs2

/-- All `${NAME}` token names of a string, in order, as `re.findall` returns
them (duplicates kept). -/
def scanTokens (cs : List Char) : List (List Char) := scanTokensF cs.length cs

/-- The literal text of a `${NAME}` token. -/
def tokenChars (name : List Char) : List Char := '$' :: '{' :: (name ++ ['}'])

/-- Fuel-indexed form of Python `str.replace` (fuel = length of the scanned
string is always sufficient: each step consumes one fuel unit and at least
one character of the remaining string). -/
def pyReplaceF : Nat → List Char → List Char → List Char → List Char
  | _, _, _, [] => []
  | 0, _, _, s => s
  | fuel + 1, old, new, c :: cs =>
    if old.isPrefixOf (c :: cs) ∧ old ≠ [] then
      new ++ pyReplaceF fuel old new ((c :: cs).drop old.length)
    else
      c :: pyReplaceF fuel old new cs

/-- Python `str.replace(old, new)`: replace every non-overlapping occurrence
of `old`, scanning the original string left to right (inserted text is not
rescanned within one call).  Only called with `old ≠ []` by the embedding. -/
def pyReplace (old new s : List Char) : List Char := pyReplaceF s.length old new s

/-- The loop body of `process_value` on a string
(config_handler.py:226-235): for each scanned name in order, if the
environment has it, globally replace its token text by the value;
otherwise leave the string alone (the name is recorded as missing
elsewhere). -/
def processChars (env : EnvMap) (s : List Char) : List Char :=
  (scanTokens s).foldl
    (fun result name =>
      match envGet env (String.mk name) with
      | some v => pyReplace (tokenChars name) v.data result
      | none => result)
    s

/-- The names a single string contributes to `missing_vars`
(config_handler.py:230-232): scanned names whose environment lookup is
`None` (duplicates kept; the claims only use membership). -/
def missingChars (env : EnvMap) (s : List Char) : List String :=
  (scanTokens s).filterMap
    (fun name =>
      if envGet env (String.mk name) = none then some (String.mk name) else none)

/-! ## JSON values (the configuration document) -/

/-- A parsed JSON document as Python's json module produces it.  Numbers are
integers here; the configuration values the claims touch are strings,
objects and arrays, and no claim depends on float arithmetic. -/
inductive JValue where
  | str (s : String)
  | num (n : Int)
  | boolean (b : Bool)
  | null
  | arr (items : List JValue)
  | obj (fields : List (String × JValue))
deriving Repr

mutual

/-- Structural equality test on JSON values (Python `==` on parsed JSON). -/
def jvalBEq : JValue → JValue → Bool
  | .str a, .str b => a == b
  | .num a, .num b => a == b
  | .boolean a, .boolean b => a == b
  | .null, .null => true
  | .arr a, .arr b => jvalListBEq a b
  | .obj a, .obj b => jvalFieldsBEq a b
  | _, _ => false

def jvalListBEq : List JValue → List JValue → Bool
  | [], [] => true
  | a :: as, b :: bs => jvalBEq a b && jvalListBEq as bs
  | _, _ => false

def jvalFieldsBEq : List (String × JValue) → List (String × JValue) → Bool
  | [], [] => true
  | a :: as, b :: bs => (a.1 == b.1 && jvalBEq a.2 b.2) && jvalFieldsBEq as bs
  | _, _ => false

end

instance : BEq JValue := ⟨jvalBEq⟩

mutual

/-- Pure half of `process_value` (config_handler.py:225-241): rebuild the
document, substituting tokens in every string leaf; dicts and lists are
rebuilt by comprehensions, other scalars pass through. -/
def processValue (env : EnvMap) : JValue → JValue
  | .str s => .str (String.mk (processChars env s.data))
  | .num n => .num n
  | .boolean b => .boolean b
  | .null => .null
  | .arr items => .arr (processList env items)
  | .obj fields => .obj (processFields env fields)

def processList (env : EnvMap) : List JValue → List JValue
  | [] => []
  | v :: vs => processValue env v :: processList env vs

def processFields (env : EnvMap) : List (String × JValue) → List (String × JValue)
  | [] => []
  | kv :: kvs => (kv.1, processValue env kv.2) :: processFields env kvs

end

mutual

/-- The `missing_vars` accumulation of `process_value`
(config_handler.py:223-232), denotationally: every scanned token name with
no environment value, over every string leaf, in traversal order
(duplicates kept; the source stores them in a set, so only membership is
observable). -/
def missingValue (env : EnvMap) : JValue → List String
  | .str s => missingChars env s.data
  | .num _ => []
  | .boolean _ => []
  | .null => []
  | .arr items => missingList env items
  | .obj fields => missingFields env fields

def missingList (env : EnvMap) : List JValue → List String
  | [] => []
  | v :: vs => missingValue env v ++ missingList env vs

def missingFields (env : EnvMap) : List (String × JValue) → List String
  | [] => []
  | kv :: kvs => missingValue env kv.2 ++ missingFields env kvs

end

mutual

/-- All string leaves of a document, in traversal order (an independent
collector used to state which `${NAME}` tokens a document references). -/
def stringsOfValue : JValue → List String
  | .str s => [s]
  | .num _ => []
  | .boolean _ => []
  | .null => []
  | .arr items => stringsOfList items
  | .obj fields => stringsOfFields fields

def stringsOfList : List JValue → List String
  | [] => []
  | v :: vs => stringsOfValue v ++ stringsOfList vs

def stringsOfFields : List (String × JValue) → List String
  | [] => []
  | kv :: kvs => stringsOfValue kv.2 ++ stringsOfFields kvs

end

/-- The `${NAME}` token names referenced by one string value. -/
def tokenNames (s : String) : List String := (scanTokens s.data).map String.mk

/-- The error payload of `ConfigError` raised by `substitute_env_vars`:
the set of unresolved names (config_handler.py:245-246 joins them into the
message "Missing required environment variables: ...").  Carried here as
the collected list; the claims are stated via membership. -/
abbrev MissingNames := List String

/-- ConfigHandler.substitute_env_vars (config_handler.py:199-248): deep-copy
the document, substitute environment tokens in every string value at every
depth, and raise `ConfigError` with the complete set of unresolved names if
any token's name is unset; otherwise return the processed copy. -/
def substitute_env_vars (env : EnvMap) (config : JValue) : Except MissingNames JValue :=
  let processed := processValue env config
  let missing := missingValue env config
  if missing = [] then .ok processed else .error missing

/-- Modelled from the spec (§4.A step 4, and claim C6's reading):
substitute `${NAME}` tokens "anywhere inside string values by the current
environment" in one pass — each token occurrence of the original string is
replaced by the environment value of its name (or kept verbatim when the
name is unset), and replacement output is never rescanned.  This is the
comparison point for the refinement claim; the code's behavior is
`substitute_env_vars` above. -/
def specSubstCharsF (env : EnvMap) : Nat → List Char → List Char
  | _, [] => []
  | 0, s => s
  | fuel + 1, '$' :: '{' :: rest =>
    match rest.dropWhile isVarCharPy with
    | '}' :: rest2 =>
      if rest.takeWhile isVarCharPy ≠ [] then
        match envGet env (String.mk (rest.takeWhile isVarCharPy)) with
        | some v => v.data ++ specSubstCharsF env fuel rest2
        | none => tokenChars (rest.takeWhile isVarCharPy) ++ specSubstCharsF env fuel rest2
      else
        '$' :: specSubstCharsF env fuel ('{' :: rest)
    | _ => '$' :: specSubstCharsF env fuel ('{' :: rest)
  | fuel + 1, c :: cs2 => c :: specSubstCharsF env fuel cs2

/-- One-pass substitution over a character list (fuel as in `scanTokensF`). -/
def specSubstChars (env : EnvMap) (cs : List Char) : List Char :=
  specSubstCharsF env cs.length cs

mutual

/-- Modelled from the spec: `specSubstChars` applied to every string leaf. -/
def specSubstValue (env : EnvMap) : JValue → JValue
  | .str s => .str (String.mk (specSubstChars env s.data))
  | .num n => .num n
  | .boolean b => .boolean b
  | .null => .null
  | .arr items => .arr (specSubstList env items)
  | .obj fields => .obj (specSubstFields env fields)

def specSubstList (env : EnvMap) : List JValue → List JValue
  | [] => []
  | v :: vs => specSubstValue env v :: specSubstList env vs

def specSubstFields (env : EnvMap) : List (String × JValue) → List (String × JValue)
  | [] => []
  | kv :: kvs => (kv.1, specSubstValue env kv.2) :: specSubstFields env kvs

end

/-! ## JSON serialization (Python json.dumps with default separators) -/

/-- Escape a character as Python's json.dumps does for the characters the
embedding meets (quote and backslash; control characters and non-ASCII do
not occur in the modelled documents). -/
def escChar (c : Char) : List Char :=
  if c = '"' then ['\\', '"'] else if c = '\\' then ['\\', '\\'] else [c]

/-- JSON string-body escaping. -/
def jsonEscape (s : String) : String := String.mk (s.data.flatMap escChar)

mutual

/-- Python `json.dumps(v)` with the default separators `", "` and `": "`
(the source never passes `indent` or `separators` on the wire paths). -/
def pyDumps : JValue → String
  | .str s => "\"" ++ jsonEscape s ++ "\""
  | .num n => toString n
  | .boolean b => if b then "true" else "false"
  | .null => "null"
  | .arr items => "[" ++ pyDumpsList items ++ "]"
  | .obj fields => "\x7b" ++ pyDumpsFields fields ++ "\x7d"

def pyDumpsList : List JValue → String
  | [] => ""
  | [v] => pyDumps v
  | v :: vs => pyDumps v ++ ", " ++ pyDumpsList vs

def pyDumpsFields : List (String × JValue) → String
  | [] => ""
  | [kv] => "\"" ++ jsonEscape kv.1 ++ "\": " ++ pyDumps kv.2
  | kv :: kvs => "\"" ++ jsonEscape kv.1 ++ "\": " ++ pyDumps kv.2 ++ ", " ++ pyDumpsFields kvs

end

/-! ## JSON object helpers (Python dict.get on parsed JSON) -/

/-- `v.get(k)` when `v` is a parsed JSON object; `none` otherwise. -/
def jlookup (v : JValue) (k : String) : Option JValue :=
  match v with
  | .obj fields => dictGet fields k
  | _ => none

/-- `v.get(k, dflt)`. -/
def jgetD (v : JValue) (k : String) (dflt : JValue) : JValue := (jlookup v k).getD dflt

/-- Python `k in v` for a parsed JSON object. -/
def jhasKey (v : JValue) (k : String) : Bool := (jlookup v k).isSome

/-- Python truthiness of a parsed JSON value (`if not tool:` at
mcp_proxy.py:787). -/
def pyTruthy : JValue → Bool
  | .str s => s ≠ ""
  | .num n => n ≠ 0
  | .boolean b => b
  | .null => false
  | .arr items => !items.isEmpty
  | .obj fields => !fields.isEmpty

/-- Python str()/f-string conversion of a JSON value, used in the request id
f-string (mcp_proxy.py:289).  Every claim formats a string here, where the
conversion is the identity; the container branches approximate Python repr
by JSON text and are not evaluated by any theorem. -/
def pyFormat : JValue → String
  | .str s => s
  | .num n => toString n
  | .boolean b => if b then "True" else "False"
  | .null => "None"
  | v => pyDumps v

/-! ## The command driver (mcp_proxy.py MCPServerManager) -/

/-- The request id built at mcp_proxy.py:289:
`f"{server_name}_{tool_name}_{int(time.time() * 1000)}"`.  The wall clock in
milliseconds is a parameter. -/
def requestId (serverName : String) (toolName : JValue) (nowMillis : Nat) : String :=
  serverName ++ "_" ++ pyFormat toolName ++ "_" ++ toString nowMillis

/-- The JSON-RPC envelope built by `_call_command_tool`
(mcp_proxy.py:286-295). -/
def buildCallRequest (serverName : String) (toolName : JValue) (arguments : JValue)
    (nowMillis : Nat) : JValue :=
  .obj [("jsonrpc", .str "2.0"),
        ("id", .str (requestId serverName toolName nowMillis)),
        ("method", .str "tools/call"),
        ("params", .obj [("name", toolName), ("arguments", arguments)])]

/-- The JSON-RPC envelope built by `_list_command_tools`
(mcp_proxy.py:464-469). -/
def listToolsRequest (serverName : String) (nowMillis : Nat) : JValue :=
  .obj [("jsonrpc", .str "2.0"),
        ("id", .str (serverName ++ "_list_tools_" ++ toString nowMillis)),
        ("method", .str "tools/list")]

/-- Observable state of a command child's stdio from the driver's side:
either the process has exited (its pipes are closed: a write raises
BrokenPipeError and a read returns end-of-file at once), or it is running
and will answer the next request line with one reply line whose parsed JSON
is `reply`. -/
inductive ChildPipe where
  | exited
  | responsive (reply : JValue)

/-- Exceptions the command driver can raise (all generic Python exceptions
in the source; there is no typed upstream-error taxonomy in the code). -/
inductive PyError where
  | brokenPipe
  | noResponse
  | mcpError (e : JValue)

/-- Diagnostic text of a driver exception, as `str(e)` would render it. -/
def pyErrMsg : PyError → String
  | .brokenPipe => "[Errno 32] Broken pipe"
  | .noResponse => "No response from MCP server"
  | .mcpError e => "MCP server error: " ++ pyFormat e

/-- MCPServerManager._call_command_tool (mcp_proxy.py:271-318): build the
envelope, write it as one line to the child's stdin, read one line from its
stdout, fail on a JSON-RPC `error` member, else return `result` (defaulting
to an empty object).  The first component is the list of lines actually
written to the child.  On an exited child the stdin write raises
BrokenPipeError, which the method logs and re-raises; nothing is read and
no reply is awaited. -/
def callCommandTool (child : ChildPipe) (serverName : String) (toolName : JValue)
    (arguments : JValue) (nowMillis : Nat) : List String × Except PyError JValue :=
  let line := pyDumps (buildCallRequest serverName toolName arguments nowMillis) ++ "\n"
  match child with
  | .exited => ([], .error .brokenPipe)
  | .responsive reply =>
    ([line],
      if jhasKey reply "error" then .error (.mcpError (jgetD reply "error" .null))
      else .ok (jgetD reply "result" (.obj [])))

/-- MCPServerManager._list_command_tools (mcp_proxy.py:451-492): same wire
exchange with a `tools/list` envelope, but every exception is caught and an
empty list is returned (mcp_proxy.py:490-492); a dead child therefore
yields `[]`, not an error. -/
def listCommandTools (child : ChildPipe) (serverName : String) (nowMillis : Nat) :
    List String × JValue :=
  let line := pyDumps (listToolsRequest serverName nowMillis) ++ "\n"
  match child with
  | .exited => ([], .arr [])
  | .responsive reply =>
    ([line],
      if jhasKey reply "error" then .arr []
      else jgetD (jgetD reply "result" (.obj [])) "tools" (.arr []))

/-! ## The HTTP front-end routes that reach the command driver -/

/-- An HTTP response of the proxy: status code and JSON body. -/
structure HttpResponse where
  statusCode : Nat
  body : JValue

/-- The invariant error body shape `_send_error_response` produces
(mcp_proxy.py:818-825). -/
def errorResponse (code : Nat) (msg : String) : HttpResponse :=
  ⟨code, .obj [("error", .obj [("code", .num code), ("message", .str msg)])]⟩

/-- MCPProxyHandler.do_POST on `/{name}` for a registered command upstream
with a parsed JSON body (mcp_proxy.py:770-806): 400 when `tool` is missing
or falsy, otherwise call the tool and answer
`{"server": name, "tool": tool, "result": result}` with 200, or 500 with
`"Error calling tool: ..."` when the driver raises.  Returns the lines
written to the child together with the response. -/
def doPostToolCall (child : ChildPipe) (serverName : String) (body : JValue)
    (nowMillis : Nat) : List String × HttpResponse :=
  match jlookup body "tool" with
  | none => ([], errorResponse 400 "Missing 'tool' parameter")
  | some tool =>
    if pyTruthy tool then
      let arguments := jgetD body "arguments" (.obj [])
      let r := callCommandTool child serverName tool arguments nowMillis
      match r.2 with
      | .ok result =>
        (r.1, ⟨200, .obj [("server", .str serverName), ("tool", tool), ("result", result)]⟩)
      | .error e => (r.1, errorResponse 500 ("Error calling tool: " ++ pyErrMsg e))
    else ([], errorResponse 400 "Missing 'tool' parameter")

/-- MCPProxyHandler.do_GET on `/{name}` for a registered command upstream
(mcp_proxy.py:752-766): list the tools and answer 200 with
`{"server": name, "tools": tools}`.  `_list_command_tools` swallows its own
exceptions, so this route cannot reach the 500 branch for a command child. -/
def doGetListTools (child : ChildPipe) (serverName : String) (nowMillis : Nat) :
    List String × HttpResponse :=
  let r := listCommandTools child serverName nowMillis
  (r.1, ⟨200, .obj [("server", .str serverName), ("tools", r.2)]⟩)

/-! ## Wire-level interleaving model for the stdio exchange (claim C1)

The child of a command upstream answers request lines in order, one reply
line per request (spec §6, child stdio framing).  `_call_command_tool` does
`stdin.write(...); stdin.flush(); stdout.readline()` with no lock
(mcp_proxy.py:297-304), and the HTTP server is a ThreadingTCPServer
(mcp_proxy.py:687), so the write and read of concurrent callers interleave
freely.  A caller's atomic actions are its write and its read; a write of
caller `c` enqueues the reply to request `c` at the tail of the child's
stdout, a read pops the head line, whichever caller gets there first. -/

/-- One atomic pipe action of caller `c`. -/
inductive PEvent where
  | writeReq (c : Nat)
  | readResp (c : Nat)
deriving DecidableEq, Repr

/-- Shared wire state: the child's pending stdout lines (identified by the
request they answer) and which caller received which reply. -/
structure WireState where
  stdoutQueue : List Nat
  received : List (Nat × Nat)
deriving DecidableEq, Repr

/-- Effect of one atomic action (a read on an empty queue blocks: it is a
no-op that the scheduler would retry; the schedules below never do it). -/
def wireStep (st : WireState) (e : PEvent) : WireState :=
  match e with
  | .writeReq c => { st with stdoutQueue := st.stdoutQueue ++ [c] }
  | .readResp c =>
    match st.stdoutQueue with
    | [] => st
    | r :: rest => ⟨rest, st.received ++ [(c, r)]⟩

/-- Run a schedule of atomic actions from the idle wire. -/
def wireRun (es : List PEvent) : WireState := es.foldl wireStep ⟨[], []⟩

/-- The driver body of caller `c`: one write followed by one read. -/
def callerProgram (c : Nat) : List PEvent := [.writeReq c, .readResp c]

/-- A schedule in which the callers never overlap (what a per-child mutex
held across the write-then-read pair would enforce). -/
def serializedSchedule (callers : List Nat) : List PEvent :=
  callers.bind callerProgram

/-- Whether caller `c`'s write occurs strictly before its read in `es`. -/
def writeBeforeRead (es : List PEvent) (c : Nat) : Bool :=
  (es.takeWhile (fun e => e ≠ PEvent.readResp c)).contains (PEvent.writeReq c)

/-- `es` is an interleaving of the given callers' driver bodies: it is a
permutation of their events and respects each caller's program order. -/
def isInterleaving (es : List PEvent) (callers : List Nat) : Prop :=
  es.Perm (callers.bind callerProgram) ∧ ∀ c ∈ callers, writeBeforeRead es c = true

/-- The concurrent schedule used as the counterexample: both callers write,
then caller 2's readline wins the race for the first reply line. -/
def cexSchedule : List PEvent :=
  [.writeReq 1, .writeReq 2, .readResp 2, .readResp 1]

/-! ## Health aggregator (health_check.py HealthCheckServer) -/

/-- Outcome of one synthetic probe `urlopen` as `check_mcp_servers` observes
it (health_check.py:180-212): a response with a status code, a
URLError/HTTPError, or any other exception. -/
inductive ProbeOutcome where
  | ok (status : Nat)
  | urlError (msg : String)
  | otherError (msg : String)
deriving DecidableEq, Repr

/-- One entry of the per-server result map. -/
structure ProbeResult where
  status : String
  healthy : Bool
  message : String
deriving DecidableEq, Repr

/-- The result entry `check_mcp_servers` records for an enabled server
(health_check.py:186-212). -/
def probeResultOf : ProbeOutcome → ProbeResult
  | .ok s =>
    if s = 200 then ⟨"healthy", true, "Server is responding"⟩
    else ⟨"unhealthy", false, "Server returned status code " ++ toString s⟩
  | .urlError m => ⟨"unhealthy", false, "Failed to connect to server: " ++ m⟩
  | .otherError m => ⟨"unknown", false, "Error checking server health: " ++ m⟩

/-- The result entry for a disabled server (health_check.py:172-176). -/
def disabledResult : ProbeResult := ⟨"disabled", true, "Server is disabled"⟩

/-- The slice of an `mcpServers` entry the health sweep reads. -/
structure ServerCfg where
  disabled : Bool
deriving DecidableEq, Repr

/-- HealthCheckServer.check_mcp_servers (health_check.py:147-218): `none`
for the configuration means the `mcpServers` key is absent (or the config
failed to load), in which case the sweep reports nothing and unhealthy.
Otherwise each server is probed (disabled ones are marked healthy and
skipped) and `overall_healthy` is and-ed with each enabled probe's
`healthy` flag.  The pair returned is (`results`, the new `is_healthy`). -/
def check_mcp_servers (cfg : Option (Dict ServerCfg)) (probe : String → ProbeOutcome) :
    Dict ProbeResult × Bool :=
  match cfg with
  | none => ([], false)
  | some servers =>
    servers.foldl
      (fun acc sv =>
        if sv.2.disabled then (acc.1 ++ [(sv.1, disabledResult)], acc.2)
        else
          let r := probeResultOf (probe sv.1)
          (acc.1 ++ [(sv.1, r)], acc.2 && r.healthy))
      ([], true)

/-- The aggregator's `is_healthy` flag right after a probe sweep
(health_check.py:215; `get_health_status` at health_check.py:323-345
reports `"healthy"` exactly when this flag is true).  Note that it is a
function of the configuration and the probe outcomes only: the supervisor
snapshot is not consulted anywhere in its computation. -/
def aggregatorIsHealthy (cfg : Option (Dict ServerCfg)) (probe : String → ProbeOutcome) :
    Bool :=
  (check_mcp_servers cfg probe).2

/-- Every enabled upstream's probe reported healthy (the left conjunct of
claim C2's right-hand side). -/
def allEnabledProbesHealthy (servers : Dict ServerCfg) (probe : String → ProbeOutcome) :
    Bool :=
  servers.all (fun sv => sv.2.disabled || (probeResultOf (probe sv.1)).healthy)

/-! ## Process supervisor (process_monitor.py ProcessMonitor) -/

/-- Supervisor state: the names with a live tracked child
(`self.processes`) and the per-name restart counters
(`self.restart_counts`, which `_start_process` initializes to 0 and the
monitor loop increments). -/
structure SupState where
  processes : List String
  counts : Dict Nat
deriving DecidableEq, Repr

/-- `self.restart_counts.get(name, 0)`. -/
def countOf (st : SupState) (n : String) : Nat := (dictGet st.counts n).getD 0

/-- What one monitor-loop visit of one tracked name observes: whether
`poll()` reported an exit, and whether the re-launch (if attempted)
succeeded (`_start_process` returns False on failure,
process_monitor.py:208-210). -/
structure MonObs where
  name : String
  exited : Bool
  startOk : Bool
deriving DecidableEq, Repr

/-- One iteration step of ProcessMonitor.monitor_processes for one tracked
process (process_monitor.py:236-272): if the process exited it is removed;
when `restart_counts[name] < max_restarts` the counter is incremented and a
re-launch is attempted (re-inserting the name on success), otherwise the
supervisor gives up and the name stays removed.  Observations for names
that are not tracked are ignored (the loop iterates over
`self.processes`). -/
def monitorStep (maxRestarts : Nat) (st : SupState) (o : MonObs) : SupState :=
  if o.name ∈ st.processes then
    if o.exited then
      let removed := st.processes.erase o.name
      if countOf st o.name < maxRestarts then
        let counts2 := dictSet st.counts o.name (countOf st o.name + 1)
        if o.startOk then ⟨removed ++ [o.name], counts2⟩ else ⟨removed, counts2⟩
      else ⟨removed, st.counts⟩
    else st
  else st

/-- A run of the monitor loop: the steps it takes, in order, over any number
of iterations. -/
def monitorRun (maxRestarts : Nat) (st : SupState) (obs : List MonObs) : SupState :=
  obs.foldl (monitorStep maxRestarts) st

/-- A name has been given up: its restart budget is exhausted and it no
longer has a tracked child. -/
def isGivenUp (maxRestarts : Nat) (st : SupState) (n : String) : Prop :=
  maxRestarts ≤ countOf st n ∧ n ∉ st.processes

/-- No supervisor entry has exhausted its restart budget (claim C2's
reading of "no process in the GivenUp state"). -/
def noGivenUpSnapshot (maxRestarts : Nat) (st : SupState) : Bool :=
  st.counts.all (fun kv => kv.2 < maxRestarts)

/-! ## Child environment composition (mcp_proxy.py:151-163,
process_monitor.py:161-173; the two loops are identical for string
values) -/

/-- The per-entry resolution of a spec `env` value: a value of the shape
`${...}` (startswith "$\x7b" and endswith "\x7d") is looked up in the
process environment by the text between the braces; a hit substitutes the
environment value, a miss logs a warning and keeps the literal text.  Any
other value is passed through.  Returns the value to install and the
warning message, if one is logged. -/
def resolveEnvValue (environ : EnvMap) (v : String) : String × Option String :=
  match v.data with
  | '$' :: '{' :: rest =>
    if rest.getLast? = some '}' then
      let n := String.mk rest.dropLast
      match envGet environ n with
      | some x => (x, none)
      | none => (v, some ("Environment variable not found: " ++ n))
    else (v, none)
  | _ => (v, none)

/-- The guard of the substitution branch (mcp_proxy.py:155,
process_monitor.py:165): the value starts with "$\x7b" and ends with
"\x7d".  A value failing this guard is installed literally. -/
def isTokenShaped (v : String) : Bool :=
  match v.data with
  | '$' :: '{' :: rest => rest.getLast? = some '}'
  | _ => false

/-- The environment composed for a child launch: `env = os.environ.copy()`
then `env[key] = resolved value` for each spec `env` entry in order.
Returns the final environment and the warnings logged. -/
def composeChildEnv (environ : EnvMap) (specEnv : EnvMap) : EnvMap × List String :=
  specEnv.foldl
    (fun acc kv =>
      let r := resolveEnvValue environ kv.2
      (dictSet acc.1 kv.1 r.1, acc.2 ++ r.2.toList))
    (environ, [])

/-- The literal token text `${n}` as a string. -/
def tokenText (n : String) : String := String.mk (tokenChars n.data)

/-- The last binding of a key in an association list (a Python dict has
unique keys, where this is the only binding). -/
def lastBinding {α : Type} (d : Dict α) (k : String) : Option α :=
  (d.reverse.find? (fun p => p.1 == k)).map (fun p => p.2)

/-! ## The /status snapshot (mcp_proxy.py MCPServerManager.get_server_status) -/

/-- What `get_server_status` reads from a command child process handle. -/
structure CmdProc where
  pid : Nat
  pollNone : Bool
deriving DecidableEq, Repr

/-- One entry of `self.servers`: the transport tag, the configured spec as
stored verbatim at startup, the child process handle (command kind only)
and the start time. -/
structure ServerInfo where
  typeName : String
  config : JValue
  proc : Option CmdProc
  startTime : Nat

/-- The per-upstream snapshot built at mcp_proxy.py:597-616: transport tag,
running flag (`process and process.poll() is None` for the command kind,
`True` for remote kinds), uptime, pid, and the stored `config` value,
included as-is. -/
def serverStatusEntry (now : Nat) (info : ServerInfo) : JValue :=
  let isRunning : Bool :=
    if info.typeName = "command" then
      match info.proc with
      | some p => p.pollNone
      | none => false
    else true
  let pidField : JValue :=
    if info.typeName = "command" then
      match info.proc with
      | some p => .num p.pid
      | none => .null
    else .null
  .obj [("type", .str info.typeName),
        ("running", .boolean isRunning),
        ("uptime", .num ((now : Int) - (info.startTime : Int))),
        ("pid", pidField),
        ("config", info.config)]

/-- MCPServerManager.get_server_status (mcp_proxy.py:588-618), the body
served with HTTP 200 by `GET /status` (mcp_proxy.py:748-751). -/
def get_server_status (now : Nat) (servers : Dict ServerInfo) : JValue :=
  .obj (servers.map (fun sv => (sv.1, serverStatusEntry now sv.2)))

/-! ## Heap model for the deep-copy discipline of substitute_env_vars
(claim C10)

Python objects live on a heap of addresses; `json.dumps` reads the object
graph out to a pure document (raising on cycles, modelled by fuel
exhaustion), `json.loads` materializes a document at fresh addresses, and
`process_value` builds its result out of fresh objects.  The heap is an
append-only association list here because the source never assigns into an
existing object on this path; the claim theorem checks exactly that: every
pre-existing cell survives unchanged and the input document reads back
identically. -/

/-- A heap cell: one Python object. -/
inductive HNode where
  | hstr (s : String)
  | hnum (n : Int)
  | hbool (b : Bool)
  | hnull
  | harr (elems : List Nat)
  | hobj (fields : List (String × Nat))
deriving DecidableEq, Repr

/-- A Python heap fragment: addresses to objects. -/
abbrev Heap := List (Nat × HNode)

/-- Dereference an address. -/
def hlookup (h : Heap) (a : Nat) : Option HNode :=
  (h.find? (fun p => p.1 == a)).map (fun p => p.2)

/-- Collect a list of optional values, failing if any is absent. -/
def optList {α : Type} : List (Option α) → Option (List α)
  | [] => some []
  | none :: _ => none
  | some x :: rest => (optList rest).map (fun xs => x :: xs)

/-- Read the object graph at `a` out to a pure document, as `json.dumps`
does (the fuel bounds the recursion depth; `none` models the ValueError
json.dumps raises on a cyclic or dangling graph). -/
def readback : Nat → Heap → Nat → Option JValue
  | 0, _, _ => none
  | fuel + 1, h, a =>
    match hlookup h a with
    | none => none
    | some (.hstr s) => some (.str s)
    | some (.hnum n) => some (.num n)
    | some (.hbool b) => some (.boolean b)
    | some .hnull => some .null
    | some (.harr es) => (optList (es.map (readback fuel h))).map .arr
    | some (.hobj fs) =>
      (optList (fs.map (fun kv => (readback fuel h kv.2).map (fun v => (kv.1, v))))).map .obj

mutual

/-- Materialize a pure document at fresh addresses starting at the
allocation counter `c`, as `json.loads` does: returns the root address, the
new cells, and the next counter. -/
def allocValue : JValue → Nat → Nat × List (Nat × HNode) × Nat
  | .str s, c => (c, [(c, .hstr s)], c + 1)
  | .num n, c => (c, [(c, .hnum n)], c + 1)
  | .boolean b, c => (c, [(c, .hbool b)], c + 1)
  | .null, c => (c, [(c, .hnull)], c + 1)
  | .arr items, c =>
    let r := allocList items c
    (r.2.2, r.2.1 ++ [(r.2.2, .harr r.1)], r.2.2 + 1)
  | .obj fields, c =>
    let r := allocFields fields c
    (r.2.2, r.2.1 ++ [(r.2.2, .hobj r.1)], r.2.2 + 1)

def allocList : List JValue → Nat → List Nat × List (Nat × HNode) × Nat
  | [], c => ([], [], c)
  | v :: vs, c =>
    let r := allocValue v c
    let r2 := allocList vs r.2.2
    (r.1 :: r2.1, r.2.1 ++ r2.2.1, r2.2.2)

def allocFields : List (String × JValue) → Nat → List (String × Nat) × List (Nat × HNode) × Nat
  | [], c => ([], [], c)
  | kv :: kvs, c =>
    let r := allocValue kv.2 c
    let r2 := allocFields kvs r.2.2
    ((kv.1, r.1) :: r2.1, r.2.1 ++ r2.2.1, r2.2.2)

end

/-- Heap-level run of the body of `substitute_env_vars`
(config_handler.py:218-248): read the document out (`json.dumps`), allocate
the deep copy (`json.loads`), build the processed result out of fresh
objects (`process_value` rebuilds every dict, list and string), and either
return the result root or raise with the missing names.  The heap only ever
grows by the copy's and the result's fresh cells — there is no assignment
into an existing address on any path, success or error. -/
def substituteHeap (fuel : Nat) (env : EnvMap) (h : Heap) (root : Nat) (ctr : Nat) :
    Except MissingNames Nat × Heap × Nat :=
  match readback fuel h root with
  | none => (.error ["ValueError: Circular reference detected"], h, ctr)
  | some v =>
    let copy := allocValue v ctr
    let res := allocValue (processValue env v) copy.2.2
    let missing := missingValue env v
    if missing = [] then (.ok res.1, (h ++ copy.2.1) ++ res.2.1, res.2.2)
    else (.error missing, (h ++ copy.2.1) ++ res.2.1, res.2.2)

/-- The mutable attribute of ConfigHandler that `substitute_env_vars`
reads: `self.config` (an object reference or None). -/
structure ConfigHandlerState where
  config : Option Nat
deriving DecidableEq, Repr

/-- ConfigHandler.substitute_env_vars as a method
(config_handler.py:199-248): defaults the argument to `self.config`, raises
when both are None, and otherwise runs the substitution body.  The handler
state is returned so the theorem can observe that the method never writes
it. -/
def substituteMethod (fuel : Nat) (env : EnvMap) (hd : ConfigHandlerState)
    (arg : Option Nat) (h : Heap) (ctr : Nat) :
    Except MissingNames Nat × Heap × Nat × ConfigHandlerState :=
  match (match arg with | some a => some a | none => hd.config) with
  | none => (.error ["No configuration loaded for environment variable substitution"], h, ctr, hd)
  | some root =>
    let r := substituteHeap fuel env h root ctr
    (r.1, r.2.1, r.2.2, hd)

/-! ## Concrete instances used by the counterexamples and witnesses -/

/-- Environment whose value for A itself contains a token for B. -/
def envCascade : EnvMap := [("A", "${B}"), ("B", "z")]

/-- Document referencing both A and B. -/
def docCascade : JValue := .obj [("a", .str "${A} ${B}")]

/-- Environment resolving A only. -/
def envPartial : EnvMap := [("A", "1")]

/-- Document referencing the resolved A and the unresolved B. -/
def docPartial : JValue := .obj [("x", .str "${A}"), ("y", .str "${B}")]

/-- Environment whose value for A contains the token for A itself. -/
def envSelfRef : EnvMap := [("A", "x${A}")]

/-- Document consisting of one reference to A. -/
def docSelfRef : JValue := .obj [("k", .str "${A}")]

/-- Environment resolving A to token-free text. -/
def envPlain : EnvMap := [("A", "x")]

/-- Document consisting of one reference to A, fully resolvable. -/
def docPlain : JValue := .obj [("k", .str "${A}")]

/-- One enabled upstream named echo. -/
def cfgEcho : Dict ServerCfg := [("echo", ⟨false⟩)]

/-- A probe sweep in which every upstream answers HTTP 200. -/
def probeAll200 : String → ProbeOutcome := fun _ => .ok 200

/-- A supervisor snapshot in which echo has exhausted a budget of 3
restarts and its child is gone. -/
def snapExhausted : SupState := ⟨[], [("echo", 3)]⟩

/-- Supervisor witness state: a tracked child for b, a given-up a. -/
def supW : SupState := ⟨["b"], [("a", 3), ("b", 1)]⟩

/-- Observations for the supervisor witness run. -/
def obsW : List MonObs := [⟨"a", true, true⟩, ⟨"b", true, true⟩]

/-- A child reply carrying a result payload. -/
def replyEcho : JValue :=
  .obj [("jsonrpc", .str "2.0"), ("id", .str "x"), ("result", .obj [("ok", .boolean true)])]

/-- The POST body of spec scenario 1. -/
def bodyNoop : JValue := .obj [("tool", .str "noop"), ("arguments", .obj [])]

/-- The spec env of the C7 witness, referencing TK. -/
def specEnvTk : EnvMap := [("API_KEY", "${TK}")]

/-- A process environment in which TK is set. -/
def environTk : EnvMap := [("TK", "secret")]

/-- The stored spec of the status counterexample, secret variant A. -/
def infoSecretA : ServerInfo :=
  ⟨"command",
   .obj [("command", .str "cat"), ("env", .obj [("API_KEY", .str "secret-A")])],
   some ⟨41, true⟩, 10⟩

/-- The stored spec of the status counterexample, secret variant B:
identical to variant A except for the secret value. -/
def infoSecretB : ServerInfo :=
  ⟨"command",
   .obj [("command", .str "cat"), ("env", .obj [("API_KEY", .str "secret-B")])],
   some ⟨41, true⟩, 10⟩

/-- Heap of the C10 witness: one string object at address 0. -/
def heapW : Heap := [(0, .hstr "${A}")]

/-- Handler state of the C10 witness: stored config at address 0. -/
def handlerW : ConfigHandlerState := ⟨some 0⟩

/-! # Theorems -/

/-! ## Missing-name collection (claims C6, C9) -/

/-- A name is collected from one string exactly when it is a scanned token
of that string and the environment does not bind it. -/
theorem mem_missingChars (env : EnvMap) (n : String) (cs : List Char) :
    n ∈ missingChars env cs ↔ n ∈ (scanTokens cs).map String.mk ∧ envGet env n = none := by
  unfold missingChars
  rw [List.mem_filterMap]
  constructor
  · rintro ⟨name, hmem, hf⟩
    by_cases hc : envGet env (String.mk name) = none
    · rw [if_pos hc] at hf
      injection hf with hf
      subst hf
      exact ⟨List.mem_map.mpr ⟨name, hmem, rfl⟩, hc⟩
    · rw [if_neg hc] at hf
      cases hf
  · rintro ⟨hmem, hn⟩
    obtain ⟨name, hname, rfl⟩ := List.mem_map.mp hmem
    exact ⟨name, hname, by rw [if_pos hn]⟩

mutual

/-- A name is in the document-level missing collection exactly when some
string leaf references it as a token and the environment does not bind it. -/
theorem mem_missingValue (env : EnvMap) (n : String) :
    ∀ v : JValue, (n ∈ missingValue env v ↔
      ∃ s, s ∈ stringsOfValue v ∧ n ∈ tokenNames s ∧ envGet env n = none)
  | .str s => by
    simp only [missingValue, stringsOfValue, List.mem_singleton]
    rw [mem_missingChars]
    constructor
    · rintro ⟨h1, h2⟩
      exact ⟨s, rfl, h1, h2⟩
    · rintro ⟨s', rfl, h1, h2⟩
      exact ⟨h1, h2⟩
  | .num m => by simp [missingValue, stringsOfValue]
  | .boolean b => by simp [missingValue, stringsOfValue]
  | .null => by simp [missingValue, stringsOfValue]
  | .arr items => by
    simp only [missingValue, stringsOfValue]
    exact mem_missingList env n items
  | .obj fields => by
    simp only [missingValue, stringsOfValue]
    exact mem_missingFields env n fields

theorem mem_missingList (env : EnvMap) (n : String) :
    ∀ vs : List JValue, (n ∈ missingList env vs ↔
      ∃ s, s ∈ stringsOfList vs ∧ n ∈ tokenNames s ∧ envGet env n = none)
  | [] => by simp [missingList, stringsOfList]
  | v :: vs => by
    simp only [missingList, stringsOfList, List.mem_append]
    rw [mem_missingValue env n v, mem_missingList env n vs]
    constructor
    · rintro (⟨s, hs, h⟩ | ⟨s, hs, h⟩)
      · exact ⟨s, Or.inl hs, h⟩
      · exact ⟨s, Or.inr hs, h⟩
    · rintro ⟨s, hs | hs, h⟩
      · exact Or.inl ⟨s, hs, h⟩
      · exact Or.inr ⟨s, hs, h⟩

theorem mem_missingFields (env : EnvMap) (n : String) :
    ∀ kvs : List (String × JValue), (n ∈ missingFields env kvs ↔
      ∃ s, s ∈ stringsOfFields kvs ∧ n ∈ tokenNames s ∧ envGet env n = none)
  | [] => by simp [missingFields, stringsOfFields]
  | kv :: kvs => by
    simp only [missingFields, stringsOfFields, List.mem_append]
    rw [mem_missingValue env n kv.2, mem_missingFields env n kvs]
    constructor
    · rintro (⟨s, hs, h⟩ | ⟨s, hs, h⟩)
      · exact ⟨s, Or.inl hs, h⟩
      · exact ⟨s, Or.inr hs, h⟩
    · rintro ⟨s, hs | hs, h⟩
      · exact Or.inl ⟨s, hs, h⟩
      · exact Or.inr ⟨s, hs, h⟩

end

/-- A token-free string passes through the substitution loop unchanged. -/
theorem processChars_tokenFree (env : EnvMap) (cs : List Char)
    (h : scanTokens cs = []) : processChars env cs = cs := by
  simp [processChars, h]

/-- A token-free string contributes no missing names. -/
theorem missingChars_tokenFree (env : EnvMap) (cs : List Char)
    (h : scanTokens cs = []) : missingChars env cs = [] := by
  simp [missingChars, h]

mutual

/-- A document with no tokens in any string leaf is a fixed point of
`process_value` and contributes no missing names. -/
theorem processValue_tokenFree (env : EnvMap) :
    ∀ v : JValue, (∀ s ∈ stringsOfValue v, tokenNames s = []) →
      processValue env v = v ∧ missingValue env v = []
  | .str s => fun h => by
    have hts : tokenNames s = [] := h s (by simp [stringsOfValue])
    have hsc : scanTokens s.data = [] := by
      unfold tokenNames at hts
      exact List.map_eq_nil.mp hts
    refine ⟨?_, by simp [missingValue, missingChars_tokenFree env _ hsc]⟩
    show JValue.str (String.mk (processChars env s.data)) = JValue.str s
    rw [processChars_tokenFree env _ hsc]
  | .num m => fun _ => by simp [processValue, missingValue]
  | .boolean b => fun _ => by simp [processValue, missingValue]
  | .null => fun _ => by simp [processValue, missingValue]
  | .arr items => fun h => by
    have hl := processList_tokenFree env items
      (fun s hs => h s (by simpa [stringsOfValue] using hs))
    simp [processValue, missingValue, hl.1, hl.2]
  | .obj fields => fun h => by
    have hl := processFields_tokenFree env fields
      (fun s hs => h s (by simpa [stringsOfValue] using hs))
    simp [processValue, missingValue, hl.1, hl.2]

theorem processList_tokenFree (env : EnvMap) :
    ∀ vs : List JValue, (∀ s ∈ stringsOfList vs, tokenNames s = []) →
      processList env vs = vs ∧ missingList env vs = []
  | [] => fun _ => by simp [processList, missingList]
  | v :: vs => fun h => by
    have h1 := processValue_tokenFree env v
      (fun s hs => h s (by simp [stringsOfList]; exact Or.inl hs))
    have h2 := processList_tokenFree env vs
      (fun s hs => h s (by simp [stringsOfList]; exact Or.inr hs))
    simp [processList, missingList, h1.1, h1.2, h2.1, h2.2]

theorem processFields_tokenFree (env : EnvMap) :
    ∀ kvs : List (String × JValue), (∀ s ∈ stringsOfFields kvs, tokenNames s = []) →
      processFields env kvs = kvs ∧ missingFields env kvs = []
  | [] => fun _ => by simp [processFields, missingFields]
  | kv :: kvs => fun h => by
    have h1 := processValue_tokenFree env kv.2
      (fun s hs => h s (by simp [stringsOfFields]; exact Or.inl hs))
    have h2 := processFields_tokenFree env kvs
      (fun s hs => h s (by simp [stringsOfFields]; exact Or.inr hs))
    simp [processFields, missingFields, h1.1, h1.2, h2.1, h2.2]

end

/-! ## Claim C6 -/

/-- C6 (amended): for every loaded configuration, `substitute_env_vars`
substitutes `${NAME}` tokens inside string values at any nesting depth by
successive global textual replacements in match order — so an environment
value that itself contains `${NAME}` text is substituted again by a later
replacement; if one or more referenced names are unset it fails exactly
once with a ConfigError carrying the complete set of unresolved names (a
name is reported iff some string leaf references it as a token and the
environment does not bind it), and no partially substituted configuration
is returned; when every referenced name is bound it succeeds with the fully
processed copy. -/
theorem substitution_error_iff_missing_complete (env : EnvMap) (config : JValue) :
    (∀ ms, substitute_env_vars env config = .error ms →
      ms ≠ [] ∧ ∀ n, (n ∈ ms ↔
        ∃ s, s ∈ stringsOfValue config ∧ n ∈ tokenNames s ∧ envGet env n = none)) ∧
    ((∀ s ∈ stringsOfValue config, ∀ n ∈ tokenNames s, envGet env n ≠ none) →
      substitute_env_vars env config = .ok (processValue env config)) := by
  constructor
  · intro ms hms
    simp only [substitute_env_vars] at hms
    by_cases hc : missingValue env config = []
    · rw [if_pos hc] at hms
      cases hms
    · rw [if_neg hc] at hms
      injection hms with hms
      subst hms
      exact ⟨hc, fun n => mem_missingValue env n config⟩
  · intro hall
    simp only [substitute_env_vars]
    have hc : missingValue env config = [] := by
      rcases hmv : missingValue env config with _ | ⟨n, rest⟩
      · rfl
      · exfalso
        have hn : n ∈ missingValue env config := by
          rw [hmv]
          exact List.mem_cons_self _ _
        rw [mem_missingValue] at hn
        obtain ⟨s, hs, htok, hnone⟩ := hn
        exact hall s hs n htok hnone
    rw [if_pos hc]

/-- C6 witness: with A bound and B unbound, the substitution fails once
with exactly the unresolved set, and the characterization theorem applies
at that input. -/
theorem substitution_error_iff_missing_complete_witness :
    substitute_env_vars envPartial docPartial = .error ["B"] ∧
    (("B" : String) ∈ (["B"] : List String) ↔
      ∃ s, s ∈ stringsOfValue docPartial ∧ ("B" : String) ∈ tokenNames s ∧
        envGet envPartial "B" = none) :=
  ⟨rfl, ((substitution_error_iff_missing_complete envPartial docPartial).1 ["B"] rfl).2 "B"⟩

/-- C6 counterexample: the claim reads "replaces each ${NAME} token with
the environment value of NAME".  With A = "${B}" and B = "z", the document
`{"a": "${A} ${B}"}` would then become `{"a": "${B} z"}` (the one-pass
reading `specSubstValue`), but the code's sequential global replacement
substitutes the `${B}` that A's value injected and yields `{"a": "z z"}`. -/
theorem substitution_cascades_env_values :
    substitute_env_vars envCascade docCascade = .ok (.obj [("a", .str "z z")]) ∧
    specSubstValue envCascade docCascade = .obj [("a", .str "${B} z")] ∧
    ("z z" : String) ≠ "${B} z" :=
  ⟨rfl, rfl, by decide⟩

/-! ## Claim C9 -/

/-- C9 (amended): substitution is idempotent on a document whose
substituted output contains no `${NAME}` token (in particular on any
fixed substitution output free of tokens): applying `substitute_env_vars`
to such an output returns it unchanged.  On general env-complete documents
idempotence can fail, because environment values may themselves contain or
splice together new tokens (see the counterexample). -/
theorem substitution_idempotent_on_tokenfree_output (env : EnvMap) (v v' : JValue)
    (_hsub : substitute_env_vars env v = .ok v')
    (hfree : ∀ s ∈ stringsOfValue v', tokenNames s = []) :
    substitute_env_vars env v' = .ok v' := by
  have h := processValue_tokenFree env v' hfree
  simp [substitute_env_vars, h.1, h.2]

/-- C9 witness: with A = "x", the output of substituting `{"k": "${A}"}`
is token-free and a second application leaves it unchanged. -/
theorem substitution_idempotent_on_tokenfree_output_witness :
    substitute_env_vars envPlain (.obj [("k", .str "x")]) = .ok (.obj [("k", .str "x")]) :=
  substitution_idempotent_on_tokenfree_output envPlain docPlain (.obj [("k", .str "x")])
    rfl (by decide)

/-- C9 counterexample: the document `{"k": "${A}"}` is env-complete for
A = "x${A}" (its only token name is bound), yet substitution is not
idempotent: the first application yields `{"k": "x${A}"}` and the second
yields `{"k": "xx${A}"}`, a different document. -/
theorem substitution_not_idempotent_env_complete :
    (∀ s ∈ stringsOfValue docSelfRef, ∀ nm ∈ tokenNames s, envGet envSelfRef nm ≠ none) ∧
    substitute_env_vars envSelfRef docSelfRef = .ok (.obj [("k", .str "x${A}")]) ∧
    substitute_env_vars envSelfRef (.obj [("k", .str "x${A}")]) ≠
      .ok (.obj [("k", .str "x${A}")]) ∧
    substitute_env_vars envSelfRef (.obj [("k", .str "x${A}")]) =
      .ok (.obj [("k", .str "xx${A}")]) := by
  refine ⟨by decide, rfl, ?_, rfl⟩
  intro h
  rw [show substitute_env_vars envSelfRef (.obj [("k", .str "x${A}")]) =
      .ok (.obj [("k", .str "xx${A}")]) from rfl] at h
  simp at h

/-! ## Dictionary update lemmas (shared by the supervisor and child-env
claims) -/

/-- Replacing the bindings of a present key: looking it up yields the new
value. -/
theorem dictGet_map_set_self {α : Type} (d : Dict α) (k : String) (v : α)
    (hany : d.any (fun p => p.1 == k) = true) :
    dictGet (d.map (fun p => if p.1 == k then (k, v) else p)) k = some v := by
  induction d with
  | nil => simp at hany
  | cons p d ih =>
    unfold dictGet at ih ⊢
    rw [List.map_cons]
    by_cases hp : p.1 == k
    · rw [if_pos hp, List.find?_cons]
      have hk : ((k, v).1 == k) = true := by simp
      rw [hk]
      rfl
    · have hpf : (p.1 == k) = false := by simpa using hp
      have hany2 : d.any (fun q => q.1 == k) = true := by
        simp [List.any_cons, hpf] at hany
        simpa using hany
      rw [if_neg hp, List.find?_cons, hpf]
      exact ih hany2

/-- Appending a fresh binding: looking up its key yields its value when the
key was absent. -/
theorem dictGet_append_single_self {α : Type} (d : Dict α) (k : String) (v : α)
    (hnone : d.any (fun p => p.1 == k) = false) :
    dictGet (d ++ [(k, v)]) k = some v := by
  unfold dictGet
  rw [List.find?_append]
  have h1 : List.find? (fun p => p.1 == k) d = none := by
    rw [List.find?_eq_none]
    intro x hx
    have := (List.any_eq_false.mp hnone) x hx
    simpa using this
  rw [h1]
  simp [List.find?]

/-- Looking up the key just set yields the value set. -/
theorem dictGet_dictSet_self {α : Type} (d : Dict α) (k : String) (v : α) :
    dictGet (dictSet d k v) k = some v := by
  unfold dictSet
  split
  · rename_i hany
    exact dictGet_map_set_self d k v hany
  · rename_i hany
    refine dictGet_append_single_self d k v ?_
    simp only [Bool.not_eq_true] at hany
    exact hany

/-- Replacing the bindings of a key leaves every other key's lookup
unchanged. -/
theorem dictGet_map_set_other {α : Type} (d : Dict α) (k k' : String) (v : α)
    (hne : k' ≠ k) :
    dictGet (d.map (fun p => if p.1 == k then (k, v) else p)) k' = dictGet d k' := by
  induction d with
  | nil => rfl
  | cons p d ih =>
    unfold dictGet at ih ⊢
    rw [List.map_cons]
    by_cases hp : p.1 == k
    · have hp1 : p.1 = k := by simpa using hp
      rw [if_pos hp, List.find?_cons, List.find?_cons]
      have h1 : ((k, v).1 == k') = false := by
        simpa using Ne.symm hne
      have h2 : (p.1 == k') = false := by
        rw [hp1]
        simpa using Ne.symm hne
      rw [h1, h2]
      exact ih
    · rw [if_neg hp, List.find?_cons, List.find?_cons]
      cases hpk : (p.1 == k') with
      | true => rfl
      | false => exact ih

/-- Appending a fresh binding leaves every other key's lookup unchanged. -/
theorem dictGet_append_single_other {α : Type} (d : Dict α) (k k' : String) (v : α)
    (hne : k' ≠ k) : dictGet (d ++ [(k, v)]) k' = dictGet d k' := by
  unfold dictGet
  rw [List.find?_append]
  have h1 : List.find? (fun p => p.1 == k') [(k, v)] = none := by
    have hkk : (k == k') = false := by simpa using Ne.symm hne
    simp [List.find?, hkk]
  rw [h1]
  cases List.find? (fun p => p.1 == k') d <;> rfl

/-- Setting one key leaves every other key's lookup unchanged. -/
theorem dictGet_dictSet_other {α : Type} (d : Dict α) (k k' : String) (v : α)
    (hne : k' ≠ k) : dictGet (dictSet d k v) k' = dictGet d k' := by
  unfold dictSet
  split
  · exact dictGet_map_set_other d k k' v hne
  · exact dictGet_append_single_other d k k' v hne

/-! ## Claim C4: supervisor restart accounting -/

/-- One monitor step never decreases a restart counter. -/
theorem countOf_monitorStep_le (maxRestarts : Nat) (st : SupState) (o : MonObs)
    (n : String) : countOf st n ≤ countOf (monitorStep maxRestarts st o) n := by
  unfold monitorStep
  split
  · split
    · split
      · by_cases hn : n = o.name
        · subst hn
          split <;>
            simp [countOf, dictGet_dictSet_self]
        · split <;>
            simp [countOf, dictGet_dictSet_other st.counts o.name n _ hn]
      · exact Nat.le_refl _
    · exact Nat.le_refl _
  · exact Nat.le_refl _

/-- Any name present after a monitor step was either already tracked or is
the observed name re-launched under an unexhausted budget. -/
theorem mem_processes_monitorStep (maxRestarts : Nat) (st : SupState) (o : MonObs)
    (n : String) (hmem : n ∈ (monitorStep maxRestarts st o).processes) :
    n ∈ st.processes ∨ (n = o.name ∧ countOf st o.name < maxRestarts) := by
  unfold monitorStep at hmem
  split at hmem
  · split at hmem
    · split at hmem
      · split at hmem
        · simp only [List.mem_append, List.mem_singleton] at hmem
          rcases hmem with hmem | rfl
          · exact Or.inl (List.mem_of_mem_erase hmem)
          · rename_i hlt _
            exact Or.inr ⟨rfl, hlt⟩
        · exact Or.inl (List.mem_of_mem_erase hmem)
      · exact Or.inl (List.mem_of_mem_erase hmem)
    · exact Or.inl hmem
  · exact Or.inl hmem

/-- A given-up name stays given up across one monitor step. -/
theorem isGivenUp_monitorStep (maxRestarts : Nat) (st : SupState) (o : MonObs)
    (n : String) (hg : isGivenUp maxRestarts st n) :
    isGivenUp maxRestarts (monitorStep maxRestarts st o) n := by
  obtain ⟨hcnt, hmem⟩ := hg
  refine ⟨Nat.le_trans hcnt (countOf_monitorStep_le maxRestarts st o n), ?_⟩
  intro hmem2
  rcases mem_processes_monitorStep maxRestarts st o n hmem2 with hin | ⟨rfl, hlt⟩
  · exact hmem hin
  · omega

/-- C4: within one supervisor lifetime the restart counter of every name is
monotonically non-decreasing across every monitor iteration and every
exit-restart transition, and once a name is given up (its budget is
exhausted and its child gone) no later step of the monitor loop ever tracks
a child for it again. -/
theorem restart_count_monotone_and_givenup_terminal (maxRestarts : Nat)
    (st : SupState) (obs : List MonObs) (n : String) :
    countOf st n ≤ countOf (monitorRun maxRestarts st obs) n ∧
    (isGivenUp maxRestarts st n → isGivenUp maxRestarts (monitorRun maxRestarts st obs) n) := by
  induction obs generalizing st with
  | nil => exact ⟨Nat.le_refl _, id⟩
  | cons o obs ih =>
    have hstep : monitorRun maxRestarts st (o :: obs) =
        monitorRun maxRestarts (monitorStep maxRestarts st o) obs := rfl
    rw [hstep]
    refine ⟨Nat.le_trans (countOf_monitorStep_le maxRestarts st o n)
      (ih (monitorStep maxRestarts st o)).1, fun hg => (ih (monitorStep maxRestarts st o)).2
        (isGivenUp_monitorStep maxRestarts st o n hg)⟩

/-- C4 witness: from a state in which a is given up (count 3 of 3, child
gone) and b is tracked at count 1, a run observing exits of both keeps a's
counter monotone and a given up, while b restarts. -/
theorem restart_count_monotone_and_givenup_terminal_witness :
    countOf supW "a" ≤ countOf (monitorRun 3 supW obsW) "a" ∧
    isGivenUp 3 (monitorRun 3 supW obsW) "a" :=
  ⟨(restart_count_monotone_and_givenup_terminal 3 supW obsW "a").1,
   (restart_count_monotone_and_givenup_terminal 3 supW obsW "a").2 ⟨by decide, by decide⟩⟩

/-! ## Claim C7: child environment composition -/

/-- The last binding of a key in a cons cell. -/
theorem lastBinding_cons {α : Type} (kv : String × α) (d : Dict α) (k : String) :
    lastBinding (kv :: d) k =
      (lastBinding d k).or (if kv.1 == k then some kv.2 else none) := by
  unfold lastBinding
  rw [List.reverse_cons, List.find?_append]
  cases hf : List.find? (fun p => p.1 == k) d.reverse with
  | none =>
    simp only [hf, Option.none_or, Option.or, Option.map_none]
    cases hp : (kv.1 == k) with
    | true => simp [List.find?, hp]
    | false => simp [List.find?, hp]
  | some p =>
    simp [hf, Option.or]

/-- A value that fails the token-shape guard is installed literally, with
no warning. -/
theorem resolveEnvValue_plain (environ : EnvMap) (v : String)
    (hv : isTokenShaped v = false) : resolveEnvValue environ v = (v, none) := by
  unfold isTokenShaped at hv
  unfold resolveEnvValue
  split
  · rename_i rest heq
    rw [heq] at hv
    simp only [decide_eq_false_iff_not] at hv
    rw [if_neg hv]
  · rfl

/-- Resolving the literal token text of a name: the environment value when
the name is bound; the literal with a warning when it is not. -/
theorem resolveEnvValue_token (environ : EnvMap) (nm : String) :
    resolveEnvValue environ (tokenText nm) =
      match envGet environ nm with
      | some x => (x, none)
      | none => (tokenText nm, some ("Environment variable not found: " ++ nm)) := by
  show resolveEnvValue environ (String.mk (tokenChars nm.data)) = _
  unfold resolveEnvValue tokenChars
  simp only [List.getLast?_concat, List.dropLast_concat, if_pos rfl]
  cases envGet environ nm <;> rfl

/-- Warnings only accumulate along the composition fold. -/
theorem composeChildEnv_warn_mono (environ : EnvMap) :
    ∀ (specEnv : EnvMap) (acc : EnvMap × List String) (w : String), w ∈ acc.2 →
      w ∈ (specEnv.foldl
        (fun acc kv =>
          let r := resolveEnvValue environ kv.2
          (dictSet acc.1 kv.1 r.1, acc.2 ++ r.2.toList)) acc).2
  | [], _, _, hw => hw
  | kv :: rest, acc, w, hw => by
    rw [List.foldl_cons]
    exact composeChildEnv_warn_mono environ rest _ w
      (by simp only [List.mem_append]; exact Or.inl hw)

/-- Every warning produced while resolving some entry of the spec env is in
the final warning list. -/
theorem composeChildEnv_warn_mem (environ : EnvMap) :
    ∀ (specEnv : EnvMap) (acc : EnvMap × List String) (kv : String × String),
      kv ∈ specEnv → ∀ w, (resolveEnvValue environ kv.2).2 = some w →
      w ∈ (specEnv.foldl
        (fun acc kv =>
          let r := resolveEnvValue environ kv.2
          (dictSet acc.1 kv.1 r.1, acc.2 ++ r.2.toList)) acc).2
  | [], _, _, hkv, _, _ => absurd hkv (List.not_mem_nil _)
  | kv0 :: rest, acc, kv, hkv, w, hw => by
    rw [List.foldl_cons]
    rcases List.mem_cons.mp hkv with rfl | hkv2
    · refine composeChildEnv_warn_mono environ rest _ w ?_
      simp only [List.mem_append, hw, Option.toList_some]
      exact Or.inr (List.mem_singleton.mpr rfl)
    · exact composeChildEnv_warn_mem environ rest _ kv hkv2 w hw

/-- The composed child environment, characterized key by key: a key bound
in the spec env gets its last binding's resolved value (the spec wins); any
other key keeps its process-environment binding. -/
theorem composeChildEnv_get (environ : EnvMap) :
    ∀ (specEnv : EnvMap) (acc : EnvMap × List String) (k : String),
      dictGet (specEnv.foldl
        (fun acc kv =>
          let r := resolveEnvValue environ kv.2
          (dictSet acc.1 kv.1 r.1, acc.2 ++ r.2.toList)) acc).1 k =
      (match lastBinding specEnv k with
       | some v => some (resolveEnvValue environ v).1
       | none => dictGet acc.1 k)
  | [], acc, k => rfl
  | kv :: rest, acc, k => by
    rw [List.foldl_cons, composeChildEnv_get environ rest _ k, lastBinding_cons]
    cases hlb : lastBinding rest k with
    | some v => rfl
    | none =>
      simp only [Option.none_or]
      by_cases hk : kv.1 == k
      · rw [if_pos hk]
        have hk1 : kv.1 = k := by simpa using hk
        subst hk1
        exact dictGet_dictSet_self acc.1 kv.1 _
      · rw [if_neg hk]
        exact dictGet_dictSet_other acc.1 kv.1 k _ (Ne.symm (by simpa using hk))

/-- C7: the child's final environment is exactly the process environment
overlaid by the spec's env map with the spec winning on conflicting keys —
every key the spec binds gets its last binding's resolved value and every
other key keeps its process-environment binding; a spec entry whose value
is not of the token shape is installed with its literal value; an entry
whose value has the exact form of a token `${NAME}` resolves to the process
environment value of NAME when it is set, and to the literal token text
with a logged warning when it is not (the launch itself never fails on
this path). -/
theorem child_env_layering_and_token_resolution (environ specEnv : EnvMap)
    (k nm : String) :
    (dictGet (composeChildEnv environ specEnv).1 k =
      (match lastBinding specEnv k with
       | some v => some (resolveEnvValue environ v).1
       | none => dictGet environ k)) ∧
    (∀ v, lastBinding specEnv k = some v → isTokenShaped v = false →
      dictGet (composeChildEnv environ specEnv).1 k = some v) ∧
    (lastBinding specEnv k = none →
      dictGet (composeChildEnv environ specEnv).1 k = dictGet environ k) ∧
    (∀ x, lastBinding specEnv k = some (tokenText nm) → envGet environ nm = some x →
      dictGet (composeChildEnv environ specEnv).1 k = some x) ∧
    (lastBinding specEnv k = some (tokenText nm) → envGet environ nm = none →
      dictGet (composeChildEnv environ specEnv).1 k = some (tokenText nm) ∧
      ("Environment variable not found: " ++ nm) ∈ (composeChildEnv environ specEnv).2) := by
  refine ⟨?_, ?_, ?_, ?_, ?_⟩
  · show dictGet (specEnv.foldl _ (environ, [])).1 k = _
    exact composeChildEnv_get environ specEnv (environ, []) k
  · intro v hlast hplain
    show dictGet (specEnv.foldl _ (environ, [])).1 k = some v
    rw [composeChildEnv_get environ specEnv (environ, []) k, hlast]
    show some (resolveEnvValue environ v).1 = some v
    rw [resolveEnvValue_plain environ v hplain]
  · intro hnone
    show dictGet (specEnv.foldl _ (environ, [])).1 k = dictGet environ k
    rw [composeChildEnv_get environ specEnv (environ, []) k, hnone]
  · intro x hlast henv
    show dictGet (specEnv.foldl _ (environ, [])).1 k = some x
    rw [composeChildEnv_get environ specEnv (environ, []) k, hlast]
    simp only [resolveEnvValue_token, henv]
  · intro hlast henv
    constructor
    · show dictGet (specEnv.foldl _ (environ, [])).1 k = some (tokenText nm)
      rw [composeChildEnv_get environ specEnv (environ, []) k, hlast]
      simp only [resolveEnvValue_token, henv]
    · have hmem : (k, tokenText nm) ∈ specEnv := by
        unfold lastBinding at hlast
        cases hf : List.find? (fun p => p.1 == k) specEnv.reverse with
        | none =>
          rw [hf] at hlast
          cases hlast
        | some p =>
          obtain ⟨a, b⟩ := p
          rw [hf] at hlast
          have ha : a = k := by simpa using List.find?_some hf
          have hb : b = tokenText nm := by simpa using hlast
          subst ha
          subst hb
          exact List.mem_reverse.mp (List.mem_of_find?_eq_some hf)
      exact composeChildEnv_warn_mem environ specEnv (environ, []) (k, tokenText nm) hmem _
        (by rw [resolveEnvValue_token, henv])

/-- C7 witness: a plain-valued spec entry FOO="bar" overrides the process
environment's FOO with its literal value; with the spec env binding
API_KEY to the token for TK, a process environment with TK=secret gives
the child API_KEY=secret, while an environment without TK gives the
literal token text and logs the warning. -/
theorem child_env_layering_and_token_resolution_witness :
    dictGet (composeChildEnv [("FOO", "fromProcess")] [("FOO", "bar")]).1 "FOO" =
      some "bar" ∧
    dictGet (composeChildEnv environTk specEnvTk).1 "API_KEY" = some "secret" ∧
    dictGet (composeChildEnv [] specEnvTk).1 "API_KEY" = some (tokenText "TK") ∧
    ("Environment variable not found: " ++ "TK") ∈ (composeChildEnv [] specEnvTk).2 :=
  ⟨(child_env_layering_and_token_resolution [("FOO", "fromProcess")] [("FOO", "bar")]
      "FOO" "TK").2.1 "bar" (by decide) (by decide),
   (child_env_layering_and_token_resolution environTk specEnvTk "API_KEY" "TK").2.2.2.1
      "secret" (by decide) rfl,
   ((child_env_layering_and_token_resolution [] specEnvTk "API_KEY" "TK").2.2.2.2
      (by decide) rfl).1,
   ((child_env_layering_and_token_resolution [] specEnvTk "API_KEY" "TK").2.2.2.2
      (by decide) rfl).2⟩

/-! ## Claim C1: stdio request/response pairing -/

/-- C1 (amended): the command driver performs the write-then-read pair with
no lock, so 1:1 request/response pairing is guaranteed only for schedules
in which the callers do not overlap — under any serialized schedule (what a
per-child mutex would enforce) N requests produce N ordered replies, each
caller receiving the reply to its own request. -/
theorem command_driver_serialized_pairing (callers : List Nat) :
    wireRun (serializedSchedule callers) = ⟨[], callers.map (fun c => (c, c))⟩ ∧
    ∀ p ∈ (wireRun (serializedSchedule callers)).received, p.1 = p.2 := by
  have go : ∀ (cs : List Nat) (acc : List (Nat × Nat)),
      (serializedSchedule cs).foldl wireStep ⟨[], acc⟩ =
        ⟨[], acc ++ cs.map (fun c => (c, c))⟩ := by
    intro cs
    induction cs with
    | nil =>
      intro acc
      simp [serializedSchedule]
    | cons c cs ih =>
      intro acc
      have hsplit : serializedSchedule (c :: cs) = callerProgram c ++ serializedSchedule cs := by
        simp [serializedSchedule]
      rw [hsplit, List.foldl_append]
      have hblock : (callerProgram c).foldl wireStep ⟨[], acc⟩ = ⟨[], acc ++ [(c, c)]⟩ := rfl
      rw [hblock, ih]
      simp
  have hrun : wireRun (serializedSchedule callers) = ⟨[], callers.map (fun c => (c, c))⟩ := by
    have := go callers []
    simpa [wireRun] using this
  refine ⟨hrun, ?_⟩
  intro p hp
  rw [hrun] at hp
  obtain ⟨c, _, rfl⟩ := List.mem_map.mp hp
  rfl

/-- C1 witness: three serialized callers each receive their own reply in
order. -/
theorem command_driver_serialized_pairing_witness :
    wireRun (serializedSchedule [1, 2, 3]) = ⟨[], [(1, 1), (2, 2), (3, 3)]⟩ ∧
    (2, 2).1 = (2, 2).2 :=
  ⟨(command_driver_serialized_pairing [1, 2, 3]).1,
   (command_driver_serialized_pairing [1, 2, 3]).2 (2, 2) (by decide)⟩

/-- C1 counterexample: the schedule write 1, write 2, read 2, read 1 is a
program-order-respecting interleaving of two concurrent callers, yet
caller 2 receives the reply to request 1 — the dead opposite of 1:1
pairing.  No per-child mutex exists in `_call_command_tool` to exclude this
interleaving. -/
theorem command_driver_interleaving_mispairs :
    isInterleaving cexSchedule [1, 2] ∧
    wireRun cexSchedule = ⟨[], [(2, 1), (1, 2)]⟩ ∧
    ¬ ∀ p ∈ (wireRun cexSchedule).received, p.1 = p.2 := by
  refine ⟨⟨by decide, by decide⟩, by decide, ?_⟩
  intro h
  have h21 := h (2, 1) (by decide)
  simp at h21

/-! ## Claim C2: health aggregation -/

/-- The sweep fold and-accumulates exactly the enabled probes' healthy
flags. -/
theorem check_mcp_servers_snd (probe : String → ProbeOutcome) :
    ∀ (servers : Dict ServerCfg) (acc : Dict ProbeResult × Bool),
      (servers.foldl
        (fun acc sv =>
          if sv.2.disabled then (acc.1 ++ [(sv.1, disabledResult)], acc.2)
          else
            let r := probeResultOf (probe sv.1)
            (acc.1 ++ [(sv.1, r)], acc.2 && r.healthy)) acc).2
      = (acc.2 && allEnabledProbesHealthy servers probe)
  | [], acc => by simp [allEnabledProbesHealthy]
  | sv :: svs, acc => by
    rw [List.foldl_cons]
    by_cases hd : sv.2.disabled
    · rw [if_pos hd, check_mcp_servers_snd probe svs]
      simp [allEnabledProbesHealthy, hd]
    · rw [if_neg hd, check_mcp_servers_snd probe svs]
      simp [allEnabledProbesHealthy, hd, Bool.and_assoc]

/-- C2 (amended): after a probe sweep the aggregator's `is_healthy` flag is
true iff every enabled upstream's probe reported healthy (disabled
upstreams count as healthy), and false when no `mcpServers` section is
configured; the supervisor snapshot is not an input of the computation at
all, so `GivenUp`-style restart exhaustion never affects it. -/
theorem is_healthy_iff_probes (cfg : Option (Dict ServerCfg))
    (probe : String → ProbeOutcome) :
    aggregatorIsHealthy cfg probe =
      (match cfg with
       | none => false
       | some servers => allEnabledProbesHealthy servers probe) := by
  cases cfg with
  | none => rfl
  | some servers =>
    show (check_mcp_servers (some servers) probe).2 = _
    simp only [check_mcp_servers]
    rw [check_mcp_servers_snd probe servers ([], true)]
    simp

/-- C2 counterexample: with one enabled upstream whose probe returns
HTTP 200 and a supervisor snapshot in which that upstream has exhausted a
budget of 3 restarts, the code's `is_healthy` is true while the claimed
right-hand side (all probes healthy AND no given-up entry) is false: the
claimed equivalence fails. -/
theorem is_healthy_ignores_givenup :
    aggregatorIsHealthy (some cfgEcho) probeAll200 = true ∧
    noGivenUpSnapshot 3 snapExhausted = false ∧
    ¬ (aggregatorIsHealthy (some cfgEcho) probeAll200 = true ↔
        (allEnabledProbesHealthy cfgEcho probeAll200 && noGivenUpSnapshot 3 snapExhausted)
          = true) := by
  refine ⟨by decide, by decide, ?_⟩
  intro h
  have h2 := h.mp (by decide)
  simp at h2
  exact absurd h2.2 (by decide)

/-! ## Claim C3: calls on an exited child -/

/-- C3 (amended): a callTool on a command upstream whose child has exited
fails at once with a generic exception (the stdin write raises
BrokenPipeError), surfaced by the POST route as HTTP 500 with an
"Error calling tool: ..." body; a listTools on the same child does not
fail at all — `_list_command_tools` swallows the exception and returns an
empty tool list, served as HTTP 200.  Neither path writes to the dead pipe
queue, waits for a restart, or produces any typed
UpstreamError(unavailable) value (no such taxonomy exists in the code). -/
theorem dead_child_fails_generic (serverName : String) (toolName arguments : JValue)
    (nowMillis : Nat) :
    callCommandTool .exited serverName toolName arguments nowMillis =
      ([], .error .brokenPipe) ∧
    listCommandTools .exited serverName nowMillis = ([], .arr []) ∧
    doPostToolCall .exited serverName bodyNoop nowMillis =
      ([], errorResponse 500 ("Error calling tool: " ++ pyErrMsg .brokenPipe)) ∧
    doGetListTools .exited serverName nowMillis =
      ([], ⟨200, .obj [("server", .str serverName), ("tools", .arr [])]⟩) :=
  ⟨rfl, rfl, rfl, rfl⟩

/-- C3 counterexample: the claim says a listTools request on an exited
child fails fast with UpstreamError(unavailable); in fact the GET route
answers HTTP 200 with an empty tools list and no error member at all. -/
theorem dead_child_listtools_returns_ok_empty :
    doGetListTools .exited "echo" 0 =
      ([], ⟨200, .obj [("server", .str "echo"), ("tools", .arr [])]⟩) ∧
    (doGetListTools .exited "echo" 0).2.statusCode = 200 ∧
    jhasKey (doGetListTools .exited "echo" 0).2.body "error" = false :=
  ⟨rfl, rfl, rfl⟩

/-! ## Claim C5: the tools/call envelope and the POST response -/

/-- C5 (amended): for a running child, the envelope written to its stdin is
exactly one line, the serialized JSON-RPC object with
jsonrpc "2.0", id `"{server}_{tool}_{millis}"` (the id embeds the TOOL
name, not the JSON-RPC method name, and is fresh only up to the clock's
millisecond resolution), method "tools/call" and
params `{name, arguments}`, followed by one newline; when the reply has no
error member, the POST route answers 200 with
`{"server": name, "tool": tool, "result": reply.result}`. -/
theorem call_envelope_and_response_shape (server tool : String) (args reply : JValue)
    (t : Nat) (hnoerr : jhasKey reply "error" = false) (htool : tool ≠ "") :
    (callCommandTool (.responsive reply) server (.str tool) args t).1 =
      [pyDumps (buildCallRequest server (.str tool) args t) ++ "\n"] ∧
    requestId server (.str tool) t = server ++ "_" ++ tool ++ "_" ++ toString t ∧
    buildCallRequest server (.str tool) args t =
      .obj [("jsonrpc", .str "2.0"),
            ("id", .str (server ++ "_" ++ tool ++ "_" ++ toString t)),
            ("method", .str "tools/call"),
            ("params", .obj [("name", .str tool), ("arguments", args)])] ∧
    doPostToolCall (.responsive reply) server
        (.obj [("tool", .str tool), ("arguments", args)]) t =
      ([pyDumps (buildCallRequest server (.str tool) args t) ++ "\n"],
       ⟨200, .obj [("server", .str server), ("tool", .str tool),
                   ("result", jgetD reply "result" (.obj []))]⟩) := by
  refine ⟨rfl, rfl, rfl, ?_⟩
  have htooltruthy : pyTruthy (.str tool) = true := by
    simp [pyTruthy, htool]
  simp [doPostToolCall, jlookup, dictGet, List.find?, jgetD, callCommandTool,
    hnoerr, htooltruthy]

/-- C5 witness: server echo, tool noop, empty arguments, clock 1000: the
line written is the serialized envelope with id "echo_noop_1000" plus one
newline, and the 200 response carries the reply's result member. -/
theorem call_envelope_and_response_shape_witness :
    requestId "echo" (.str "noop") 1000 = "echo_noop_1000" ∧
    doPostToolCall (.responsive replyEcho) "echo" bodyNoop 1000 =
      ([pyDumps (buildCallRequest "echo" (.str "noop") (.obj []) 1000) ++ "\n"],
       ⟨200, .obj [("server", .str "echo"), ("tool", .str "noop"),
                   ("result", .obj [("ok", .boolean true)])]⟩) :=
  ⟨(call_envelope_and_response_shape "echo" "noop" (.obj []) replyEcho 1000 rfl
      (by decide)).2.1,
   (call_envelope_and_response_shape "echo" "noop" (.obj []) replyEcho 1000 rfl
      (by decide)).2.2.2⟩

/-- C5 counterexample: the claim says the id has the form
`"echo_tools/call_<fresh>"`, embedding the JSON-RPC method name.  The code
builds `"echo_noop_1234"` — it embeds the tool name, and no id of the
claimed shape is ever produced for this call. -/
theorem request_id_embeds_tool_name_not_method :
    requestId "echo" (.str "noop") 1234 = "echo_noop_1234" ∧
    ("echo_tools/call_").isPrefixOf (requestId "echo" (.str "noop") 1234) = false ∧
    jgetD (buildCallRequest "echo" (.str "noop") (.obj []) 1234) "id" .null =
      .str "echo_noop_1234" :=
  ⟨by decide, by decide, rfl⟩

/-! ## Claim C8: the /status snapshot and secrets -/

/-- C8 (amended): the per-upstream snapshot of GET /status reports the
transport tag, the running flag, the uptime, the pid when a child process
exists, and the configured spec verbatim — secrets in a command upstream's
env map (or a remote upstream's headers) are part of that spec and are NOT
redacted. -/
theorem status_reports_config_verbatim (now : Nat) (info : ServerInfo) :
    jgetD (serverStatusEntry now info) "config" .null = info.config ∧
    jgetD (serverStatusEntry now info) "type" .null = .str info.typeName ∧
    jgetD (serverStatusEntry now info) "uptime" .null =
      .num ((now : Int) - (info.startTime : Int)) ∧
    (∀ p, info.proc = some p → info.typeName = "command" →
      jgetD (serverStatusEntry now info) "running" .null = .boolean p.pollNone ∧
      jgetD (serverStatusEntry now info) "pid" .null = .num p.pid) := by
  refine ⟨rfl, rfl, rfl, ?_⟩
  intro p hp htype
  rw [serverStatusEntry, htype, hp]
  exact ⟨rfl, rfl⟩

/-- C8 witness: at the concrete stored spec with an env secret, the
snapshot's config member is that spec itself and the pid is reported. -/
theorem status_reports_config_verbatim_witness :
    jgetD (serverStatusEntry 100 infoSecretA) "config" .null = infoSecretA.config ∧
    jgetD (serverStatusEntry 100 infoSecretA) "pid" .null = .num 41 :=
  ⟨(status_reports_config_verbatim 100 infoSecretA).1,
   ((status_reports_config_verbatim 100 infoSecretA).2.2.2 ⟨41, true⟩ rfl rfl).2⟩

/-- C8 counterexample: two runs that differ only in the env secret of the
stored spec produce different GET /status bodies, and the secret value
itself sits in the response under config.env — the claimed redaction
non-interference is violated. -/
theorem status_leaks_env_secret :
    get_server_status 100 [("echo", infoSecretA)] ≠
      get_server_status 100 [("echo", infoSecretB)] ∧
    jgetD (jgetD (jgetD (get_server_status 100 [("echo", infoSecretA)]) "echo" .null)
        "config" .null) "env" .null = .obj [("API_KEY", .str "secret-A")] := by
  refine ⟨?_, rfl⟩
  intro h
  exact absurd (congrArg pyDumps h) (by decide)

/-! ## Claim C10: substitute_env_vars leaves its input untouched -/

/-- Appending cells to a heap preserves every existing cell (lookups take
the first match and the old cells come first). -/
theorem hlookup_append_some (h tl : Heap) (a : Nat) (node : HNode)
    (hl : hlookup h a = some node) : hlookup (h ++ tl) a = some node := by
  unfold hlookup at hl ⊢
  rw [List.find?_append]
  cases hf : List.find? (fun p => p.1 == a) h with
  | none => rw [hf] at hl; cases hl
  | some p =>
    rw [hf] at hl
    rw [Option.or]
    exact hl

/-- Collecting optional values from a pointwise-stronger map succeeds with
the same result. -/
theorem optList_map_mono {α β : Type} (f g : β → Option α)
    (hfg : ∀ b x, f b = some x → g b = some x) :
    ∀ (l : List β) (xs : List α),
      optList (l.map f) = some xs → optList (l.map g) = some xs
  | [], xs, h => by simpa using h
  | b :: l, xs, h => by
    rw [List.map_cons] at h ⊢
    cases hb : f b with
    | none =>
      rw [hb] at h
      simp [optList] at h
    | some x =>
      rw [hb] at h
      simp only [optList, Option.map_eq_some'] at h
      obtain ⟨ys, hys, rfl⟩ := h
      rw [hfg b x hb]
      simp only [optList, Option.map_eq_some']
      exact ⟨ys, optList_map_mono f g hfg l ys hys, rfl⟩

/-- Reading a document back is stable under appending cells: whatever read
back successfully before the call reads back identically after it. -/
theorem readback_append (tl : Heap) :
    ∀ (fuel : Nat) (h : Heap) (a : Nat) (v : JValue),
      readback fuel h a = some v → readback fuel (h ++ tl) a = some v := by
  intro fuel
  induction fuel with
  | zero =>
    intro h a v hr
    cases hr
  | succ fuel ih =>
    intro h a v hr
    rw [readback] at hr ⊢
    cases hn : hlookup h a with
    | none => rw [hn] at hr; cases hr
    | some node =>
      rw [hn] at hr
      rw [hlookup_append_some h tl a node hn]
      cases node with
      | hstr s => exact hr
      | hnum n => exact hr
      | hbool b => exact hr
      | hnull => exact hr
      | harr es =>
        simp only [Option.map_eq_some'] at hr ⊢
        obtain ⟨xs, hxs, rfl⟩ := hr
        exact ⟨xs, optList_map_mono _ _ (fun e x hx => ih h e x hx) es xs hxs, rfl⟩
      | hobj fs =>
        simp only [Option.map_eq_some'] at hr ⊢
        obtain ⟨xs, hxs, rfl⟩ := hr
        refine ⟨xs, optList_map_mono _ _ ?_ fs xs hxs, rfl⟩
        intro kv x hx
        rw [Option.map_eq_some'] at hx ⊢
        obtain ⟨w, hw, rfl⟩ := hx
        exact ⟨w, ih h kv.2 w hw, rfl⟩

/-- The substitution body only appends to the heap, on the success path and
the error path alike. -/
theorem substituteHeap_heap_extends (fuel : Nat) (env : EnvMap) (h : Heap)
    (root : Nat) (ctr : Nat) (v : JValue) (hread : readback fuel h root = some v) :
    ∃ tl, (substituteHeap fuel env h root ctr).2.1 = h ++ tl := by
  unfold substituteHeap
  rw [hread]
  dsimp only
  split
  · exact ⟨_, List.append_assoc _ _ _⟩
  · exact ⟨_, List.append_assoc _ _ _⟩

/-- C10: `substitute_env_vars` operates on a deep copy: for every heap in
which the configuration argument (or the handler's stored configuration)
reads back as a document, the call — whether it returns the processed copy
or raises ConfigError — leaves every pre-existing heap cell unchanged, the
input configuration reads back exactly as before, and the handler's stored
configuration reference is untouched. -/
theorem substitute_env_vars_preserves_input_heap (fuel : Nat) (env : EnvMap)
    (hd : ConfigHandlerState) (arg : Option Nat) (h : Heap) (ctr : Nat) (root : Nat)
    (v : JValue)
    (hroot : (match arg with | some a => some a | none => hd.config) = some root)
    (hread : readback fuel h root = some v) :
    (∀ a node, hlookup h a = some node →
      hlookup (substituteMethod fuel env hd arg h ctr).2.1 a = some node) ∧
    readback fuel (substituteMethod fuel env hd arg h ctr).2.1 root = some v ∧
    (substituteMethod fuel env hd arg h ctr).2.2.2 = hd := by
  obtain ⟨tl, htl⟩ := substituteHeap_heap_extends fuel env h root ctr v hread
  have hm : substituteMethod fuel env hd arg h ctr =
      ((substituteHeap fuel env h root ctr).1,
       (substituteHeap fuel env h root ctr).2.1,
       (substituteHeap fuel env h root ctr).2.2, hd) := by
    unfold substituteMethod
    rw [hroot]
  rw [hm]
  dsimp only
  rw [htl]
  exact ⟨fun a node hl => hlookup_append_some h tl a node hl,
    readback_append tl fuel h root v hread, rfl⟩

/-- C10 witness: a one-cell heap holding the stored configuration string at
address 0; after the method call the cell still holds the same string, and
the handler still points at address 0. -/
theorem substitute_env_vars_preserves_input_heap_witness :
    hlookup (substituteMethod 3 envPlain handlerW none heapW 1).2.1 0 =
      some (.hstr "${A}") ∧
    readback 3 (substituteMethod 3 envPlain handlerW none heapW 1).2.1 0 =
      some (.str "${A}") ∧
    (substituteMethod 3 envPlain handlerW none heapW 1).2.2.2 = handlerW :=
  ⟨(substitute_env_vars_preserves_input_heap 3 envPlain handlerW none heapW 1 0
      (.str "${A}") rfl rfl).1 0 (.hstr "${A}") rfl,
   (substitute_env_vars_preserves_input_heap 3 envPlain handlerW none heapW 1 0
      (.str "${A}") rfl rfl).2.1,
   (substitute_env_vars_preserves_input_heap 3 envPlain handlerW none heapW 1 0
      (.str "${A}") rfl rfl).2.2⟩

end Mcpo
